import Mathlib

/-!
Verification of the credit-metered AI feature gate and the resilient
MCQ-parsing pipeline of the vamsuapp repository.

The definitions below are a shallow embedding of the TypeScript sources:
  * `src/my-app/src/hooks/useCredits.ts` (the client-side deduction hook),
  * `src/my-app/src/services/billingService.ts` (balance fetch / check),
  * `src/supabase/functions/dodo-webhook/index.ts` (credit grants),
  * `src/my-app/src/features/PDFMCQ/screens/PDFGeneratorScreen.tsx`
    (PDF flow, layered fallback parsing, line-oriented text parsing),
  * `src/my-app/src/features/PDFMCQ/screens/AIMCQGeneratorScreen.tsx`
    (topic-driven generation and its options-array normalisation).

External collaborators (the Supabase network layer, the document picker,
the OpenRouter HTTP endpoint) are modelled as explicit outcome
parameters; the host JavaScript `JSON.parse` builtin is modelled by a
small executable JSON reader.
-/

/-- Strings are modelled as lists of characters throughout. -/
abbrev Chars := List Char

/-- Conversion from a Lean string literal to the character-list model. -/
def str (s : String) : Chars := s.data

/-- Left brace character (kept as a named constant). -/
def lbrace : Char := Char.ofNat 123

/-- Right brace character (kept as a named constant). -/
def rbrace : Char := Char.ofNat 125

/-- Backtick character (kept as a named constant). -/
def btick : Char := Char.ofNat 96

-- ===================== Credit ledger model =====================

/-- The five metered features (`CREDIT_COSTS` keys, useCredits.ts:17-23). -/
inductive Feature where
  | summary | mind_map | mcq_generator | pdf_mcq | essay_evaluation
deriving DecidableEq, Repr

/-- Model of `CREDIT_COSTS` (useCredits.ts:17-23, identical in billingService.ts:50-56). -/
def CREDIT_COSTS : Feature → Int
  | .summary => 1
  | .mind_map => 2
  | .mcq_generator => 3
  | .pdf_mcq => 5
  | .essay_evaluation => 3

/-- The `feature_used` string stored in a usage transaction. -/
def featureKey : Feature → String
  | .summary => "summary"
  | .mind_map => "mind_map"
  | .mcq_generator => "mcq_generator"
  | .pdf_mcq => "pdf_mcq"
  | .essay_evaluation => "essay_evaluation"

/-- One row of the append-only `credit_transactions` table. -/
structure TxnRow where
  transaction_type : String
  credits : Int
  balance_after : Int
  feature_used : Option String
deriving DecidableEq, Repr

/-- The remote ledger state for one account: the `current_credits` column
of its `user_subscriptions` row plus its `credit_transactions` entries
(most recent first). -/
structure Db where
  current_credits : Int
  txns : List TxnRow
deriving DecidableEq, Repr

/-- Environment of one invocation of the deduction callback in
`useCredits.ts`: the dev-mode bypass flag, the authenticated identifier
(`userId || userEmail`), and the outcomes of the two network writes. -/
structure HookCtx where
  bypass : Bool
  identifier : Option String
  updateOk : Bool
  insertThrows : Bool
deriving DecidableEq, Repr

/-- The deduction callback of `useCredits.ts:106-170`.  `cached` is the
React-state `credits` value the hook read earlier; the balance update
unconditionally writes `cached - cost` (a client-side read-modify-write),
and the transaction insert can reject after the update succeeded, which
the surrounding try/catch turns into a `false` return. -/
def hookUseCredits (ctx : HookCtx) (feature : Feature) (cached : Int) (db : Db) :
    Bool × Db :=
  if ctx.bypass then (true, db)
  else
    let cost := CREDIT_COSTS feature
    if cached < cost then (false, db)
    else
      match ctx.identifier with
      | none => (false, db)
      | some _ =>
        if ctx.updateOk = false then (false, db)
        else
          let db1 : Db := ⟨cached - cost, db.txns⟩
          if ctx.insertThrows then (false, db1)
          else
            let txn : TxnRow :=
              ⟨"usage", -cost, cached - cost, some (featureKey feature)⟩
            (true, ⟨db1.current_credits, txn :: db1.txns⟩)

/-- Model of `PLAN_CREDITS` (dodo-webhook/index.ts:13-16). -/
def PLAN_CREDITS : String → Option Int := fun p =>
  if p = "basic" then some 200 else if p = "pro" then some 400 else none

/-- Model of `PACKAGE_CREDITS` (dodo-webhook/index.ts:19-23). -/
def PACKAGE_CREDITS : String → Option Int := fun p =>
  if p = "pdt_0NWfIIB8YCLeExHJxEp0D" then some 50
  else if p = "pdt_0NWfIJl53N3g787FepmFP" then some 120
  else if p = "pdt_0NWfILvFXsCCRNki0ojs6" then some 300
  else none

/-- Model of `PRODUCT_PLANS` (dodo-webhook/index.ts:26-29). -/
def PRODUCT_PLANS : String → Option String := fun p =>
  if p = "pdt_0NWfIDvBZePuVfiU5bmom" then some "basic"
  else if p = "pdt_0NWfIFkWCMpUGhXYfg4aw" then some "pro"
  else none

/-- Model of `handleSubscriptionCreated` (dodo-webhook/index.ts:102-181), restricted
to its ledger effect: the upsert overwrites `current_credits` with the
plan's monthly credits and logs a `subscription_credit` transaction. -/
def handleSubscriptionCreated (productId : String) (db : Db) : Db :=
  let planType := (PRODUCT_PLANS productId).getD "basic"
  let monthlyCredits := (PLAN_CREDITS planType).getD 0
  ⟨monthlyCredits,
   TxnRow.mk "subscription_credit" monthlyCredits monthlyCredits none :: db.txns⟩

/-- Model of `handleSubscriptionRenewed` (dodo-webhook/index.ts:184-230): adds the
plan's monthly credits (defaulting to 200 when the stored plan type is not
in `PLAN_CREDITS`) and logs the transaction. -/
def handleSubscriptionRenewed (planType : String) (db : Db) : Db :=
  let monthlyCredits := (PLAN_CREDITS planType).getD 200
  let newCredits := db.current_credits + monthlyCredits
  ⟨newCredits,
   TxnRow.mk "subscription_credit" monthlyCredits newCredits none :: db.txns⟩

/-- Model of `handlePaymentCompleted` (dodo-webhook/index.ts:249-320) for an account
whose `user_subscriptions` row exists: a recognised credit package adds its
credits and logs a `purchase` transaction; an unrecognised product is a
no-op.  (The missing-row branch inserts a fresh row whose balance is
exactly the purchased amount.) -/
def handlePaymentCompleted (productId : String) (db : Db) : Db :=
  match PACKAGE_CREDITS productId with
  | none => db
  | some creditsAmount =>
    let currentCredits := db.current_credits
    let newBalance := currentCredits + creditsAmount
    ⟨newBalance,
     TxnRow.mk "purchase" creditsAmount newBalance none :: db.txns⟩

/-- One ledger-mutating operation of the system. -/
inductive LedgerOp where
  | debit (ctx : HookCtx) (feature : Feature)
  | subCreated (productId : String)
  | renewal (planType : String)
  | purchase (productId : String)
deriving DecidableEq, Repr

/-- Sequential application of one operation (the debit reads a fresh
cache, i.e. `cached = db.current_credits`). -/
def applyOp (db : Db) : LedgerOp → Db
  | .debit ctx f => (hookUseCredits ctx f db.current_credits db).2
  | .subCreated p => handleSubscriptionCreated p db
  | .renewal p => handleSubscriptionRenewed p db
  | .purchase p => handlePaymentCompleted p db

/-- Sequential application of a list of operations. -/
def applyOps (db : Db) (ops : List LedgerOp) : Db := ops.foldl applyOp db

/-- The balance comparison guard of the deduction callback
(useCredits.ts:115): the debit proceeds iff the cached balance is not
below the cost. -/
def hookCheck (cached cost : Int) : Bool := !(cached < cost)

/-- The value the deduction callback writes into `current_credits`
(useCredits.ts:139): the cached balance minus the cost, unconditionally. -/
def hookWriteValue (cached cost : Int) : Int := cached - cost

/-- Two devices sharing one account each run the deduction callback with
the same previously fetched cache `b0`; the schedule interleaves
check/check/write/write.  Returns (device A's result, device B's result,
final `current_credits`). -/
def twoInterleavedHookDebits (b0 cost : Int) : Bool × Bool × Int :=
  let cacheA := b0
  let cacheB := b0
  match hookCheck cacheA cost, hookCheck cacheB cost with
  | true, true =>
    let _bAfterA := hookWriteValue cacheA cost
    let bAfterB := hookWriteValue cacheB cost
    (true, true, bAfterB)
  | true, false => (true, false, hookWriteValue cacheA cost)
  | false, true => (false, true, hookWriteValue cacheB cost)
  | false, false => (false, false, b0)

-- ===================== Balance fetch (billingService.ts) =====================

/-- The `CreditBalance` record returned by `getUserCredits`
(billingService.ts:40-47). -/
structure CreditBalance where
  has_subscription : Bool
  plan_type : String
  credits : Int
  monthly_credits : Int
  expires_at : Option String
  status : String
deriving DecidableEq, Repr

/-- The literal record returned on both fallback paths of `getUserCredits`
(billingService.ts:96-105 and 111-121). -/
def emptyBalance : CreditBalance := ⟨false, "none", 0, 0, none, "none"⟩

/-- Model of `getUserCredits` (billingService.ts:93-124): with no authenticated
user, or when the `get_user_credits` RPC errors, the zero-credit record is
returned instead of throwing; otherwise the RPC data is returned. -/
def getUserCredits (user : Option String) (rpc : Except String CreditBalance) :
    CreditBalance :=
  match user with
  | none => emptyBalance
  | some _ =>
    match rpc with
    | .error _ => emptyBalance
    | .ok data => data

/-- Result record of `checkCredits` (billingService.ts:129-144). -/
structure CheckResult where
  hasCredits : Bool
  currentCredits : Int
  requiredCredits : Int
  planType : String
deriving DecidableEq, Repr

/-- Model of `checkCredits` (billingService.ts:129-144): fetches the balance and
compares it against the feature cost. -/
def checkCredits (feature : Feature) (user : Option String)
    (rpc : Except String CreditBalance) : CheckResult :=
  let balance := getUserCredits user rpc
  let requiredCredits := CREDIT_COSTS feature
  ⟨decide (requiredCredits ≤ balance.credits), balance.credits,
   requiredCredits, balance.plan_type⟩

-- ===================== PDF flow (startProcess) =====================

/-- Model of `ProcessStage` (PDFGeneratorScreen.tsx:76). -/
inductive ProcessStage where
  | idle | picking | reading | ocr | generating | parsing | complete | error
deriving DecidableEq, Repr

/-- Outcome of the document-picker call inside `startProcess`. -/
inductive PickOutcome where
  | canceled
  | pickFailed
  | picked (sizeMB : Int)
deriving DecidableEq, Repr

/-- External outcomes consumed by one run of `startProcess`
(PDFGeneratorScreen.tsx:690-822).  `genResult` is the outcome of
`generateMCQsFromPDF`; `nat` sizes stand in for the numeric checks. -/
structure FlowEnv where
  ctx : HookCtx
  pick : PickOutcome
  readOk : Bool
  genResult : Except String (List Nat)
deriving Repr

/-- Model of `startProcess` (PDFGeneratorScreen.tsx:690-822), restricted to its
control flow and ledger effect.  The credit check and the debit happen
before the file picker opens; a cancelled pick returns to `idle` with no
compensating ledger operation; errors further down set the `error` stage.
The generated questions are abstracted to an opaque list.  The local
session save failure (lines 806-808) only logs a warning and does not
change the stage or the ledger, so it is omitted. -/
def startProcessModel (env : FlowEnv) (cached : Int) (db : Db) :
    ProcessStage × Db :=
  if !(env.ctx.bypass || !(cached < CREDIT_COSTS .pdf_mcq)) then
    (ProcessStage.idle, db)
  else
    let r := hookUseCredits env.ctx .pdf_mcq cached db
    if r.1 = false then (ProcessStage.idle, r.2)
    else
      match env.pick with
      | .canceled => (ProcessStage.idle, r.2)
      | .pickFailed => (ProcessStage.error, r.2)
      | .picked sizeMB =>
        if 20 < sizeMB then (ProcessStage.error, r.2)
        else if env.readOk = false then (ProcessStage.error, r.2)
        else
          match env.genResult with
          | .error _ => (ProcessStage.error, r.2)
          | .ok mcqs =>
            if mcqs.length = 0 then (ProcessStage.error, r.2)
            else (ProcessStage.complete, r.2)

-- ===================== JSON model (host JSON.parse builtin) =====================

/-- JSON values as produced by the host `JSON.parse` builtin.  Numeric
literals are restricted to integers; none of the fixtures exercised by the
theorems contain fractional numbers. -/
inductive JVal where
  | jnull
  | jbool (b : Bool)
  | jnum (n : Int)
  | jstr (s : Chars)
  | jarr (elems : List JVal)
  | jobj (fields : List (Chars × JVal))
deriving Repr

/-- JSON whitespace skipping (space, tab, newline, carriage return). -/
def skipWSJ : Chars → Chars
  | [] => []
  | c :: rest =>
    if c = ' ' ∨ c = '\t' ∨ c = '\n' ∨ c = '\r' then skipWSJ rest else c :: rest

/-- Body of a JSON string literal after the opening quote; handles the
common escape sequences (the fixtures contain none of the others). -/
def parseJStrAux : Chars → Chars → Option (Chars × Chars)
  | acc, '"' :: rest => some (acc.reverse, rest)
  | acc, '\\' :: c :: rest =>
    if c = '"' then parseJStrAux ('"' :: acc) rest
    else if c = '\\' then parseJStrAux ('\\' :: acc) rest
    else if c = '/' then parseJStrAux ('/' :: acc) rest
    else if c = 'n' then parseJStrAux ('\n' :: acc) rest
    else if c = 't' then parseJStrAux ('\t' :: acc) rest
    else if c = 'r' then parseJStrAux ('\r' :: acc) rest
    else none
  | _, '\\' :: [] => none
  | acc, c :: rest => parseJStrAux (c :: acc) rest
  | _, [] => none

/-- Leading decimal digits of a character list. -/
def takeDigits : Chars → Chars × Chars
  | [] => ([], [])
  | c :: rest =>
    if c.isDigit then
      let (ds, r) := takeDigits rest
      (c :: ds, r)
    else ([], c :: rest)

/-- Decimal digits to a natural number. -/
def digitsToNat (ds : Chars) : Nat :=
  ds.foldl (fun acc c => acc * 10 + (c.toNat - 48)) 0

/-- A JSON integer literal (optional minus sign, at least one digit). -/
def parseJNum (s : Chars) : Option (Int × Chars) :=
  match s with
  | '-' :: rest =>
    match takeDigits rest with
    | ([], _) => none
    | (ds, r) => some (-(Int.ofNat (digitsToNat ds)), r)
  | _ =>
    match takeDigits s with
    | ([], _) => none
    | (ds, r) => some (Int.ofNat (digitsToNat ds), r)

mutual

/-- One JSON value, fuel-bounded. -/
def parseJVal : Nat → Chars → Option (JVal × Chars)
  | 0, _ => none
  | fuel + 1, s =>
    match skipWSJ s with
    | '"' :: rest => (parseJStrAux [] rest).map fun p => (JVal.jstr p.1, p.2)
    | 't' :: 'r' :: 'u' :: 'e' :: rest => some (JVal.jbool true, rest)
    | 'f' :: 'a' :: 'l' :: 's' :: 'e' :: rest => some (JVal.jbool false, rest)
    | 'n' :: 'u' :: 'l' :: 'l' :: rest => some (JVal.jnull, rest)
    | c :: rest =>
      if c = lbrace then
        match skipWSJ rest with
        | c2 :: rest2 =>
          if c2 = rbrace then some (JVal.jobj [], rest2)
          else (parseJFields fuel rest).map fun p => (JVal.jobj p.1, p.2)
        | [] => none
      else if c = '[' then
        match skipWSJ rest with
        | ']' :: rest2 => some (JVal.jarr [], rest2)
        | _ => (parseJElems fuel rest).map fun p => (JVal.jarr p.1, p.2)
      else (parseJNum (c :: rest)).map fun p => (JVal.jnum p.1, p.2)
    | [] => none

/-- Comma-separated array elements up to the closing bracket. -/
def parseJElems : Nat → Chars → Option (List JVal × Chars)
  | 0, _ => none
  | fuel + 1, s =>
    match parseJVal fuel s with
    | none => none
    | some (v, r) =>
      match skipWSJ r with
      | ',' :: r2 => (parseJElems fuel r2).map fun p => (v :: p.1, p.2)
      | ']' :: r2 => some ([v], r2)
      | _ => none

/-- Comma-separated object fields up to the closing brace. -/
def parseJFields : Nat → Chars → Option (List (Chars × JVal) × Chars)
  | 0, _ => none
  | fuel + 1, s =>
    match skipWSJ s with
    | '"' :: rest =>
      match parseJStrAux [] rest with
      | none => none
      | some (key, r) =>
        match skipWSJ r with
        | ':' :: r2 =>
          match parseJVal fuel r2 with
          | none => none
          | some (v, r3) =>
            match skipWSJ r3 with
            | ',' :: r4 => (parseJFields fuel r4).map fun p => ((key, v) :: p.1, p.2)
            | c4 :: r4 =>
              if c4 = rbrace then some ([(key, v)], r4) else none
            | [] => none
        | _ => none
    | _ => none

end

/-- Model of the host `JSON.parse` builtin: the whole input must be a
single JSON value surrounded by nothing but whitespace; `none` stands for
the `SyntaxError` the builtin throws. -/
def jsonParseModel (s : Chars) : Option JVal :=
  match parseJVal (s.length + 1) s with
  | some (v, r) => if skipWSJ r = [] then some v else none
  | none => none

/-- Object property lookup as on a `JSON.parse` result (`undefined` is
`none`; duplicate keys resolve to the last occurrence). -/
def lookupLast : List (Chars × JVal) → Chars → Option JVal
  | [], _ => none
  | (k', v) :: rest, k =>
    match lookupLast rest k with
    | some r => some r
    | none => if k' = k then some v else none

/-- Model of `v.k` / `v?.k`: property access on a JSON value. -/
def jGetField (v : JVal) (k : Chars) : Option JVal :=
  match v with
  | .jobj fs => lookupLast fs k
  | _ => none

/-- JavaScript truthiness of a possibly-undefined JSON value. -/
def jsTruthyOpt : Option JVal → Bool
  | none => false
  | some .jnull => false
  | some (.jbool b) => b
  | some (.jnum n) => !(n = 0)
  | some (.jstr s) => !s.isEmpty
  | some (.jarr _) => true
  | some (.jobj _) => true

/-- Model of `a || b` where `a` is a possibly-undefined JSON value. -/
def jsOr (a : Option JVal) (b : JVal) : JVal :=
  if jsTruthyOpt a then a.getD b else b

/-- JavaScript string coercion of a JSON value.  Only the string case is
exercised by the theorems; the other cases are abbreviated renderings. -/
def jvalAsStr : JVal → Chars
  | .jstr s => s
  | .jnull => str "null"
  | .jbool true => str "true"
  | .jbool false => str "false"
  | .jnum n => (toString n).data
  | .jarr _ => str "[array]"
  | .jobj _ => str "[object]"

/-- Truthiness of `x?.length` for a possibly-undefined JSON value. -/
def jLenTruthy : Option JVal → Bool
  | some (.jarr xs) => !xs.isEmpty
  | some (.jstr s) => !s.isEmpty
  | _ => false

/-- JavaScript `toUpperCase` restricted to ASCII. -/
def toUpperChars (s : Chars) : Chars := s.map Char.toUpper

-- ===================== Regex-model helpers =====================

/-- Case-insensitive character comparison (the `i` regex flag). -/
def chEqCI (a b : Char) : Bool := a.toLower = b.toLower

/-- The JavaScript `\s` character class (ASCII part). -/
def isWsChar (c : Char) : Bool :=
  c = ' ' ∨ c = '\t' ∨ c = '\n' ∨ c = '\r' ∨ c = Char.ofNat 11 ∨ c = Char.ofNat 12

/-- Greedy `\s*`: drop leading whitespace. -/
def dropWS : Chars → Chars
  | [] => []
  | c :: rest => if isWsChar c then dropWS rest else c :: rest

/-- Length of the leading run of characters satisfying `p`. -/
def runLen (p : Char → Bool) : Chars → Nat
  | [] => 0
  | c :: rest => if p c then runLen p rest + 1 else 0

/-- JavaScript `String.prototype.trim`. -/
def jsTrim (s : Chars) : Chars := (dropWS (dropWS s).reverse).reverse

/-- Match a literal token case-insensitively at the head, returning the
remainder. -/
def matchTokenCI : Chars → Chars → Option Chars
  | [], s => some s
  | _ :: _, [] => none
  | t :: ts, c :: cs => if chEqCI t c then matchTokenCI ts cs else none

/-- Lazy `([\s\S]+?)(?=look)`: the shortest non-empty prefix whose
remainder satisfies the lookahead.  Returns (capture, remainder). -/
def scanLazy (look : Chars → Bool) : Chars → Option (Chars × Chars)
  | [] => none
  | c :: rest =>
    if look rest then some ([c], rest)
    else (scanLazy look rest).map fun p => (c :: p.1, p.2)

/-- Greedy backtracking over a leading character-class run: try dropping
`k` class characters for `k` from the run length down to `0`, returning
the first success (the behaviour of a greedy `class*` before a lazy
group). -/
def backtrackDrop (attempt : Chars → Option Chars) (s : Chars) : Nat → Option Chars
  | 0 => attempt s
  | k + 1 =>
    match attempt (s.drop (k + 1)) with
    | some r => some r
    | none => backtrackDrop attempt s k

/-- Greedy-with-backtracking `\s*` before a capture group. -/
def wsBack (attempt : Chars → Option Chars) (s : Chars) : Option Chars :=
  backtrackDrop attempt s (runLen isWsChar s)

/-- The `[:\s]` character class. -/
def isColonOrWs (c : Char) : Bool := c = ':' ∨ isWsChar c

/-- Greedy-with-backtracking `\s*[:\s]*` before a capture group (the two
adjacent classes behave as one `[:\s]*` run). -/
def colonWsBack (attempt : Chars → Option Chars) (s : Chars) : Option Chars :=
  backtrackDrop attempt s (runLen isColonOrWs s)

/-- The lookahead `(?=\n\s*TOK\.)` used for an option marker (with the
`i` flag). -/
def lookOptDot (tok : Chars) (s : Chars) : Bool :=
  match s with
  | '\n' :: rest =>
    (match matchTokenCI tok (dropWS rest) with
     | some ('.' :: _) => true
     | _ => false)
  | _ => false

-- ===================== Text parser (parseMCQResponse) =====================

/-- The `MCQ` record (PDFGeneratorScreen.tsx:57-66). -/
structure MCQ where
  id : Nat
  question : Chars
  optionA : Chars
  optionB : Chars
  optionC : Chars
  optionD : Chars
  correctAnswer : Chars
  explanation : Chars
deriving DecidableEq, Repr

/-- The split marker `/Question\s+(\d+)\s*:/gi` matched at the head:
returns (captured digits, remainder after the colon). -/
def matchQMarker (s : Chars) : Option (Chars × Chars) :=
  match matchTokenCI (str "Question") s with
  | none => none
  | some r1 =>
    match r1 with
    | c :: rest1 =>
      if isWsChar c then
        match takeDigits (dropWS rest1) with
        | ([], _) => none
        | (ds, r3) =>
          match dropWS r3 with
          | ':' :: r4 => some (ds, r4)
          | _ => none
      else none
    | [] => none

/-- Model of `content.split(/Question\s+(\d+)\s*:/gi)` (PDFGeneratorScreen.tsx:569):
JavaScript split with a capture group interleaves the captured digit
strings between the segments. -/
def splitQAux : Nat → Chars → Chars → List Chars
  | 0, cur, _ => [cur.reverse]
  | _ + 1, cur, [] => [cur.reverse]
  | fuel + 1, cur, s@(c :: rest) =>
    match matchQMarker s with
    | some (ds, after) => cur.reverse :: ds :: splitQAux fuel [] after
    | none => splitQAux fuel (c :: cur) rest

/-- See `splitQAux`. -/
def splitQuestions (s : Chars) : List Chars := splitQAux (s.length + 1) [] s

/-- Attempt of `/LETTER\.\s*([\s\S]+?)(?=\n\s*NEXT\.)/i` anchored at the
current position. -/
def tryP1At (letter : Char) (next : Chars) (s : Chars) : Option Chars :=
  match s with
  | a :: b :: rest =>
    if chEqCI a letter ∧ b = '.' then
      wsBack (fun t => (scanLazy (lookOptDot next) t).map Prod.fst) rest
    else none
  | _ => none

/-- Leftmost match of `/LETTER\.\s*([\s\S]+?)(?=\n\s*NEXT\.)/i`. -/
def searchP1 (letter : Char) (next : Chars) : Chars → Option Chars
  | [] => none
  | s@(_ :: rest) =>
    match tryP1At letter next s with
    | some cap => some cap
    | none => searchP1 letter next rest

/-- The lookahead `(?=\n)`. -/
def lookNl (s : Chars) : Bool :=
  match s with
  | '\n' :: _ => true
  | _ => false

/-- Lazy `(.+?)(?=\n)`: shortest non-empty run of non-newline characters
followed by a newline. -/
def scanLazyNoNl : Chars → Option Chars
  | [] => none
  | c :: rest =>
    if c = '\n' then none
    else if lookNl rest then some [c]
    else (scanLazyNoNl rest).map fun cap => c :: cap

/-- Attempt of `/LETTER\.\s*(.+?)(?=\n)/i` anchored at the current
position. -/
def tryP2At (letter : Char) (s : Chars) : Option Chars :=
  match s with
  | a :: b :: rest =>
    if chEqCI a letter ∧ b = '.' then wsBack scanLazyNoNl rest else none
  | _ => none

/-- Leftmost match of `/LETTER\.\s*(.+?)(?=\n)/i`. -/
def searchP2 (letter : Char) : Chars → Option Chars
  | [] => none
  | s@(_ :: rest) =>
    match tryP2At letter s with
    | some cap => some cap
    | none => searchP2 letter rest

/-- Model of `content.split('\n')`. -/
def splitNlAux : Chars → Chars → List Chars
  | cur, [] => [cur.reverse]
  | cur, c :: rest =>
    if c = '\n' then cur.reverse :: splitNlAux [] rest else splitNlAux (c :: cur) rest

/-- See `splitNlAux`. -/
def splitNl (s : Chars) : List Chars := splitNlAux [] s

/-- Model of `line.trim().match(/^LETTER\./i)` (extractOption fallback guard). -/
def lineStartsOpt (letter : Char) (line : Chars) : Bool :=
  match line with
  | a :: b :: _ => chEqCI a letter ∧ b = '.'
  | _ => false

/-- Model of `line.replace(/^LETTER\.\s*/i, '')`: the anchored prefix is removed
from the untrimmed line when it matches, otherwise the line is returned
unchanged. -/
def replaceAnchoredOpt (letter : Char) (line : Chars) : Chars :=
  match line with
  | a :: b :: rest => if chEqCI a letter ∧ b = '.' then dropWS rest else line
  | _ => line

/-- The line-oriented fallback inside `extractOption`
(PDFGeneratorScreen.tsx:637-643): the first line whose trimmed form
starts with `LETTER.` yields the line with the anchored marker removed,
trimmed. -/
def fallbackOptionLines (letter : Char) : List Chars → Chars
  | [] => []
  | line :: rest =>
    if lineStartsOpt letter (jsTrim line) then jsTrim (replaceAnchoredOpt letter line)
    else fallbackOptionLines letter rest

/-- Model of `extractOption` (PDFGeneratorScreen.tsx:623-646): two regex patterns
tried in order, then the line-oriented fallback, else the empty string. -/
def extractOption (content : Chars) (letter : Char) (next : Chars) : Chars :=
  match searchP1 letter next content with
  | some cap => jsTrim cap
  | none =>
    match searchP2 letter content with
    | some cap => jsTrim cap
    | none => fallbackOptionLines letter (splitNl content)

/-- Membership in the `[A-D]` class under the `i` flag. -/
def isLetterAD (c : Char) : Bool :=
  c = 'A' ∨ c = 'B' ∨ c = 'C' ∨ c = 'D' ∨ c = 'a' ∨ c = 'b' ∨ c = 'c' ∨ c = 'd'

/-- Attempt of `/Correct\s*Answer\s*[:\s]*([A-D])/i` anchored at the
current position (the class runs cannot overlap the letter capture, so no
backtracking is required). -/
def tryCorrectAt (s : Chars) : Option Char :=
  match matchTokenCI (str "Correct") s with
  | none => none
  | some r1 =>
    match matchTokenCI (str "Answer") (dropWS r1) with
    | none => none
    | some r2 =>
      match (dropWS r2).dropWhile isColonOrWs with
      | c :: _ => if isLetterAD c then some c else none
      | [] => none

/-- Leftmost match of `/Correct\s*Answer\s*[:\s]*([A-D])/i`. -/
def correctAnswerMatch : Chars → Option Char
  | [] => none
  | s@(_ :: rest) =>
    match tryCorrectAt s with
    | some c => some c
    | none => correctAnswerMatch rest

/-- The lookahead `(?=\n\s*$|$)`. -/
def lookExplEnd (s : Chars) : Bool :=
  match s with
  | [] => true
  | '\n' :: rest => (dropWS rest).isEmpty
  | _ => false

/-- Attempt of `/Explanation\s*[:\s]*([\s\S]+?)(?=\n\s*$|$)/i` anchored at
the current position. -/
def tryExplAt (s : Chars) : Option Chars :=
  match matchTokenCI (str "Explanation") s with
  | none => none
  | some r1 => colonWsBack (fun t => (scanLazy lookExplEnd t).map Prod.fst) r1

/-- Leftmost match of `/Explanation\s*[:\s]*([\s\S]+?)(?=\n\s*$|$)/i`. -/
def explanationMatch : Chars → Option Chars
  | [] => none
  | s@(_ :: rest) =>
    match tryExplAt s with
    | some cap => some cap
    | none => explanationMatch rest

/-- One iteration of the block loop of `parseMCQResponse`
(PDFGeneratorScreen.tsx:571-618): short blocks, blocks without a question
body of at least 10 characters, and blocks missing any option are skipped
(`continue`); otherwise a record is pushed. -/
def parseBlock (numDigits : Chars) (qc : Chars) : Option MCQ :=
  if qc.isEmpty ∨ qc.length < 50 then none
  else
    let question :=
      match scanLazy (lookOptDot (str "A")) qc with
      | some p => jsTrim p.1
      | none => []
    if question.isEmpty ∨ question.length < 10 then none
    else
      let optionA := extractOption qc 'A' (str "B")
      let optionB := extractOption qc 'B' (str "C")
      let optionC := extractOption qc 'C' (str "D")
      let optionD := extractOption qc 'D' (str "Correct")
      if optionA.isEmpty ∨ optionB.isEmpty ∨ optionC.isEmpty ∨ optionD.isEmpty then
        none
      else
        let correctAnswer :=
          match correctAnswerMatch qc with
          | some c => [c.toUpper]
          | none => ['A']
        let explanation :=
          match explanationMatch qc with
          | some cap => jsTrim cap
          | none => str "The correct answer is " ++ correctAnswer ++ str "."
        some ⟨digitsToNat numDigits, question, optionA, optionB, optionC, optionD,
              correctAnswer, explanation⟩

/-- The `for (let i = 1; i < parts.length; i += 2)` loop over the split
parts (digit capture / block content pairs). -/
def parseLoop : List Chars → List MCQ
  | numDigits :: qc :: rest =>
    (match parseBlock numDigits qc with
     | some m => [m]
     | none => []) ++ parseLoop rest
  | _ => []

/-- Model of `parseMCQResponse` (PDFGeneratorScreen.tsx:563-621), the stage-4
line-oriented text parser. -/
def parseMCQResponse (content : Chars) : List MCQ :=
  match splitQuestions content with
  | [] => []
  | _pre :: rest => parseLoop rest

-- ===================== Layered fallback dispatch =====================

/-- Does the input start with a triple backtick fence? -/
def startsWithFence (s : Chars) : Bool :=
  match s with
  | a :: b :: c :: _ => a = btick ∧ b = btick ∧ c = btick
  | _ => false

/-- Lazy `([\s\S]*?)` up to the next fence: the (possibly empty) prefix
before the first triple backtick, or `none` when no fence follows. -/
def scanToFence : Chars → Option Chars
  | [] => none
  | s@(c :: rest) =>
    if startsWithFence s then some []
    else (scanToFence rest).map fun cap => c :: cap

/-- Attempt of ``/```(?:json)?\s*([\s\S]*?)```/`` anchored at the current
position (the pattern has no `i` flag, so `json` is matched
case-sensitively). -/
def tryFencedAt (s : Chars) : Option Chars :=
  if startsWithFence s then
    let r1 := s.drop 3
    let r2 :=
      match r1 with
      | 'j' :: 's' :: 'o' :: 'n' :: rest => rest
      | _ => r1
    scanToFence (dropWS r2)
  else none

/-- Leftmost match of ``/```(?:json)?\s*([\s\S]*?)```/`` (the stage-2
code-block extraction). -/
def fencedMatch : Chars → Option Chars
  | [] => none
  | s@(_ :: rest) =>
    match tryFencedAt s with
    | some cap => some cap
    | none => fencedMatch rest

/-- Case-sensitive prefix test. -/
def startsWithSub : Chars → Chars → Bool
  | [], _ => true
  | _ :: _, [] => false
  | p :: ps, c :: cs => p = c ∧ startsWithSub ps cs

/-- Remainder after the first occurrence of `pat`, or `none`. -/
def dropThroughSub (pat : Chars) : Chars → Option Chars
  | [] => none
  | s@(_ :: rest) =>
    if startsWithSub pat s then some (s.drop pat.length)
    else dropThroughSub pat rest

/-- Index of the last occurrence of `c`. -/
def lastIdxOf (c : Char) : Chars → Option Nat
  | [] => none
  | x :: rest =>
    match lastIdxOf c rest with
    | some i => some (i + 1)
    | none => if x = c then some 0 else none

/-- Attempt of `/\{[\s\S]*"KEY"[\s\S]*\}/` anchored at the current
position: an opening brace with the quoted key somewhere after it and a
closing brace after that; the greedy quantifiers extend the match to the
last closing brace. -/
def tryObjAt (quotedKey : Chars) (s : Chars) : Option Chars :=
  match s with
  | c :: rest =>
    if c = lbrace then
      match dropThroughSub quotedKey rest with
      | none => none
      | some afterKey =>
        if afterKey.contains rbrace then
          match lastIdxOf rbrace s with
          | some i => some (s.take (i + 1))
          | none => none
        else none
    else none
  | [] => none

/-- Leftmost match of `/\{[\s\S]*"KEY"[\s\S]*\}/` (the stage-3 embedded
object extraction). -/
def objMatchKey (quotedKey : Chars) : Chars → Option Chars
  | [] => none
  | s@(_ :: rest) =>
    match tryObjAt quotedKey s with
    | some sub => some sub
    | none => objMatchKey quotedKey rest

/-- Which fallback stage produced a parse result (instrumentation). -/
inductive PStage where
  | s1 | s2 | s3 | s4
deriving DecidableEq, Repr

/-- Errors thrown out of the parse dispatch: a `JSON.parse` SyntaxError
escaping stage 2 or 3, the `No MCQs in response` / `No questions in
response` guard, a type error from mapping a non-array, and the
`Could not parse response` throw of the topic-driven screen. -/
inductive ParseErr where
  | jsonThrow | noMcqs | typeError | couldNotParse
deriving DecidableEq, Repr

/-- The entry normalisation of `generateMCQsFromPDF`
(PDFGeneratorScreen.tsx:477-486): key-variant fallbacks map onto the
canonical record, missing fields become empty strings, and the correct
answer defaults to `'A'`. -/
def pdfNormalizeEntry (i : Nat) (m : JVal) : MCQ :=
  ⟨i + 1,
   jvalAsStr (jsOr (jGetField m (str "question")) (.jstr [])),
   jvalAsStr (jsOr (jGetField m (str "optionA"))
     (jsOr (jGetField m (str "option_a")) (.jstr []))),
   jvalAsStr (jsOr (jGetField m (str "optionB"))
     (jsOr (jGetField m (str "option_b")) (.jstr []))),
   jvalAsStr (jsOr (jGetField m (str "optionC"))
     (jsOr (jGetField m (str "option_c")) (.jstr []))),
   jvalAsStr (jsOr (jGetField m (str "optionD"))
     (jsOr (jGetField m (str "option_d")) (.jstr []))),
   toUpperChars (jvalAsStr (jsOr (jGetField m (str "correctAnswer"))
     (jsOr (jGetField m (str "correct_answer")) (.jstr (str "A"))))),
   jvalAsStr (jsOr (jGetField m (str "explanation")) (.jstr []))⟩

/-- The `!parsed?.mcqs?.length` guard and the `parsed.mcqs.map` call
(PDFGeneratorScreen.tsx:470-486). -/
def pdfFinish (parsed : JVal) : Except ParseErr (List MCQ) :=
  let mcqsField := jGetField parsed (str "mcqs")
  if jLenTruthy mcqsField then
    match mcqsField with
    | some (.jarr xs) => .ok (xs.enum.map fun p => pdfNormalizeEntry p.1 p.2)
    | _ => .error .typeError
  else .error .noMcqs

/-- The layered parse dispatch of `generateMCQsFromPDF`
(PDFGeneratorScreen.tsx:449-486): whole-response JSON, then fenced-block
JSON, then embedded-object JSON, then the text parser.  Only stage 1's
`JSON.parse` failure is caught by the inner try/catch; a `JSON.parse`
SyntaxError in stage 2 or 3 propagates to the outer catch and aborts the
invocation.  The result is tagged with the stage that produced it. -/
def parsePdfContent (content : Chars) : Except ParseErr (PStage × List MCQ) :=
  match jsonParseModel content with
  | some parsed => (pdfFinish parsed).map fun ms => (PStage.s1, ms)
  | none =>
    match fencedMatch content with
    | some cap =>
      match jsonParseModel (jsTrim cap) with
      | some parsed => (pdfFinish parsed).map fun ms => (PStage.s2, ms)
      | none => .error .jsonThrow
    | none =>
      match objMatchKey (str "\"mcqs\"") content with
      | some sub =>
        match jsonParseModel sub with
        | some parsed => (pdfFinish parsed).map fun ms => (PStage.s3, ms)
        | none => .error .jsonThrow
      | none => .ok (PStage.s4, parseMCQResponse content)

/-- Model of `opts[i]?.isCorrect` truthiness (AIMCQGeneratorScreen.tsx:215-217). -/
def aiOptFlag (opts : List JVal) (i : Nat) : Bool :=
  jsTruthyOpt
    (match opts.get? i with
     | some o => jGetField o (str "isCorrect")
     | none => none)

/-- The correct-letter computation of the topic-driven screen
(AIMCQGeneratorScreen.tsx:214-217): start from `'A'`, then three
non-exclusive `if` statements overwrite it for options B, C, D in turn,
so the last flagged option among B-D wins and option A's own flag is
never consulted. -/
def aiCorrectLetter (opts : List JVal) : Chars :=
  let c0 := str "A"
  let c1 := if aiOptFlag opts 1 then str "B" else c0
  let c2 := if aiOptFlag opts 2 then str "C" else c1
  if aiOptFlag opts 3 then str "D" else c2

/-- Model of `opts[i]?.text || ''` (AIMCQGeneratorScreen.tsx:222-225). -/
def aiOptText (opts : List JVal) (i : Nat) : Chars :=
  jvalAsStr (jsOr
    (match opts.get? i with
     | some o => jGetField o (str "text")
     | none => none)
    (.jstr []))

/-- The entry normalisation of `generateMCQs`
(AIMCQGeneratorScreen.tsx:212-229).  A truthy non-array `options` value
(not producible by the JSON fixtures in scope) is modelled as the empty
options list. -/
def aimcqNormalizeEntry (i : Nat) (q : JVal) : MCQ :=
  let opts : List JVal :=
    match jsOr (jGetField q (str "options")) (.jarr []) with
    | .jarr xs => xs
    | _ => []
  ⟨i + 1,
   jvalAsStr (jsOr (jGetField q (str "question")) (.jstr [])),
   aiOptText opts 0, aiOptText opts 1, aiOptText opts 2, aiOptText opts 3,
   aiCorrectLetter opts,
   jvalAsStr (jsOr (jGetField q (str "explanation")) (.jstr []))⟩

/-- The `!parsed?.questions?.length` guard and the `parsed.questions.map`
call (AIMCQGeneratorScreen.tsx:206-229). -/
def aimcqFinish (parsed : JVal) : Except ParseErr (List MCQ) :=
  let questionsField := jGetField parsed (str "questions")
  if jLenTruthy questionsField then
    match questionsField with
    | some (.jarr xs) => .ok (xs.enum.map fun p => aimcqNormalizeEntry p.1 p.2)
    | _ => .error .typeError
  else .error .noMcqs

/-- The layered parse dispatch of `generateMCQs`
(AIMCQGeneratorScreen.tsx:185-229): the same three structured stages as
the PDF screen but keyed on `"questions"`, and no stage-4 text parser -
exhaustion throws `Could not parse response`. -/
def parseAimcqContent (content : Chars) : Except ParseErr (PStage × List MCQ) :=
  match jsonParseModel content with
  | some parsed => (aimcqFinish parsed).map fun ms => (PStage.s1, ms)
  | none =>
    match fencedMatch content with
    | some cap =>
      match jsonParseModel (jsTrim cap) with
      | some parsed => (aimcqFinish parsed).map fun ms => (PStage.s2, ms)
      | none => .error .jsonThrow
    | none =>
      match objMatchKey (str "\"questions\"") content with
      | some sub =>
        match jsonParseModel sub with
        | some parsed => (aimcqFinish parsed).map fun ms => (PStage.s3, ms)
        | none => .error .jsonThrow
      | none => .error .couldNotParse

/-- Modelled from the spec (section 4.2 `normalize`): the correct option
is the FIRST option whose boolean flag is true, defaulting to `A` when
none is marked.  Stated from the spec's words for comparison with the
source's `aiCorrectLetter`. -/
def specFirstTrueLetter (flags : List Bool) : Chars :=
  match flags.findIdx? id with
  | some 0 => str "A"
  | some 1 => str "B"
  | some 2 => str "C"
  | some 3 => str "D"
  | _ => str "A"

/-- An options-array entry carrying only an `isCorrect` flag. -/
def mkFlagOpt (b : Bool) : JVal := .jobj [(str "isCorrect", .jbool b)]

-- ===================== Helper lemmas (ledger) =====================

/-- Model of `PLAN_CREDITS` lookups with a non-negative default are non-negative. -/
theorem planCredits_getD_nonneg (p : String) (k : Int) (hk : 0 ≤ k) :
    0 ≤ (PLAN_CREDITS p).getD k := by
  unfold PLAN_CREDITS
  by_cases h1 : p = "basic"
  · simp [h1]
  · by_cases h2 : p = "pro"
    · simp [h1, h2]
    · simpa [h1, h2] using hk

/-- Every recognised credit package grants a non-negative amount. -/
theorem packageCredits_nonneg (p : String) (a : Int)
    (h : PACKAGE_CREDITS p = some a) : 0 ≤ a := by
  unfold PACKAGE_CREDITS at h
  by_cases h1 : p = "pdt_0NWfIIB8YCLeExHJxEp0D"
  · simp [h1] at h; omega
  · by_cases h2 : p = "pdt_0NWfIJl53N3g787FepmFP"
    · simp [h1, h2] at h; omega
    · by_cases h3 : p = "pdt_0NWfILvFXsCCRNki0ojs6"
      · simp [h1, h2, h3] at h; omega
      · simp [h1, h2, h3] at h

/-- Every single ledger operation preserves a non-negative balance. -/
theorem applyOp_nonneg (db : Db) (op : LedgerOp) (h : 0 ≤ db.current_credits) :
    0 ≤ (applyOp db op).current_credits := by
  cases op with
  | debit ctx f =>
    by_cases hb : ctx.bypass = true
    · simpa [applyOp, hookUseCredits, hb] using h
    · by_cases hlt : db.current_credits < CREDIT_COSTS f
      · simpa [applyOp, hookUseCredits, hb, hlt] using h
      · cases hid : ctx.identifier with
        | none => simpa [applyOp, hookUseCredits, hb, hlt, hid] using h
        | some u =>
          by_cases hup : ctx.updateOk = false
          · simpa [applyOp, hookUseCredits, hb, hlt, hid, hup] using h
          · by_cases hit : ctx.insertThrows = true
            · simp [applyOp, hookUseCredits, hb, hlt, hid, hup, hit]
              omega
            · simp [applyOp, hookUseCredits, hb, hlt, hid, hup, hit]
              omega
  | subCreated p =>
    simp only [applyOp, handleSubscriptionCreated]
    exact planCredits_getD_nonneg _ 0 le_rfl
  | renewal p =>
    have hp := planCredits_getD_nonneg p 200 (by norm_num)
    simp only [applyOp, handleSubscriptionRenewed]
    omega
  | purchase p =>
    cases hpc : PACKAGE_CREDITS p with
    | none => simpa [applyOp, handlePaymentCompleted, hpc] using h
    | some a =>
      have := packageCredits_nonneg p a hpc
      simp [applyOp, handlePaymentCompleted, hpc]
      omega

/-- Every sequence of ledger operations preserves a non-negative balance. -/
theorem applyOps_nonneg : ∀ (ops : List LedgerOp) (db : Db),
    0 ≤ db.current_credits → 0 ≤ (applyOps db ops).current_credits
  | [], _, h => h
  | op :: rest, db, h =>
    applyOps_nonneg rest (applyOp db op) (applyOp_nonneg db op h)

-- ===================== Claim theorems: ledger =====================

/-- C1: with an account balance equal to one `pdf_mcq` charge, two
concurrent deduction-callback invocations that both read the shared
cached balance before either writes both pass the `credits < cost` check
and both unconditionally write `cached - cost`; both report success and
the final balance is `0`.  This refutes the claim that exactly one debit
succeeds while the other fails with InsufficientCredits, and exhibits the
debit as a client-side read-modify-write rather than a single conditional
update at the ledger. -/
theorem c1_interleaved_debits_both_succeed :
    twoInterleavedHookDebits (CREDIT_COSTS Feature.pdf_mcq)
      (CREDIT_COSTS Feature.pdf_mcq) = (true, true, 0) := by decide

/-- C2: for every account and every sequence of debit and credit
operations the balance stays non-negative, and any (non-bypass) debit
attempted with a balance below the feature cost returns failure and
leaves the ledger state completely unchanged. -/
theorem c2_balance_invariant (db : Db) (ops : List LedgerOp)
    (h : 0 ≤ db.current_credits) :
    0 ≤ (applyOps db ops).current_credits ∧
    ∀ ctx f, ctx.bypass = false → db.current_credits < CREDIT_COSTS f →
      hookUseCredits ctx f db.current_credits db = (false, db) := by
  refine ⟨applyOps_nonneg ops db h, ?_⟩
  intro ctx f hb hlt
  simp [hookUseCredits, hb, hlt]

/-- Witness for C2 at the spec's scenario: balance 2, a renewal keeps the
balance non-negative, and any feature costing more than 2 credits fails
without mutation. -/
theorem c2_balance_invariant_witness :
    0 ≤ (applyOps (Db.mk 2 []) [LedgerOp.renewal "basic"]).current_credits ∧
    ∀ ctx f, ctx.bypass = false →
      (Db.mk 2 []).current_credits < CREDIT_COSTS f →
      hookUseCredits ctx f (Db.mk 2 []).current_credits (Db.mk 2 []) =
        (false, Db.mk 2 []) :=
  c2_balance_invariant (Db.mk 2 []) [LedgerOp.renewal "basic"] (by decide)

/-- C7 counterexample: with no authenticated user the balance fetch
returns `plan_type = "none"`, not the `"free"` tier the claim states. -/
theorem c7_unauthenticated_plan_type_is_none :
    (getUserCredits none
      (Except.ok (CreditBalance.mk true "pro" 400 400 none "active"))).plan_type
      = "none" ∧ ("none" : String) ≠ "free" := by decide

/-- C7 (amended): when no user identifier is available or the remote
fetch fails, `getUserCredits` returns the zero-balance record (whose
`plan_type` and `status` are `"none"`) instead of throwing, and every
subsequent sufficiency check evaluates to not entitled. -/
theorem c7_balance_fetch_fails_closed (user : Option String)
    (rpc : Except String CreditBalance) (f : Feature)
    (h : user = none ∨ ∃ e, rpc = Except.error e) :
    getUserCredits user rpc = emptyBalance ∧
    (checkCredits f user rpc).hasCredits = false := by
  obtain h | ⟨e, he⟩ := h
  · subst h
    exact ⟨rfl, by cases f <;> rfl⟩
  · subst he
    cases user with
    | none => exact ⟨rfl, by cases f <;> rfl⟩
    | some u => exact ⟨rfl, by cases f <;> rfl⟩

/-- Witness for C7: unauthenticated fetch, `mcq_generator` gate. -/
theorem c7_balance_fetch_fails_closed_witness :
    getUserCredits none (Except.ok (CreditBalance.mk true "pro" 400 400 none "active"))
      = emptyBalance ∧
    (checkCredits Feature.mcq_generator none
      (Except.ok (CreditBalance.mk true "pro" 400 400 none "active"))).hasCredits = false :=
  c7_balance_fetch_fails_closed none
    (Except.ok (CreditBalance.mk true "pro" 400 400 none "active"))
    Feature.mcq_generator (Or.inl rfl)

/-- C8: for every successful debit, renewal or purchase that appends a
transaction, the appended row's `balance_after` equals the balance
immediately after the mutation, which itself equals the previous balance
plus the row's delta. -/
theorem c8_txn_balance_after_is_running_total (db : Db) (op : LedgerOp) (t : TxnRow)
    (hkind : ∀ p, op ≠ LedgerOp.subCreated p)
    (happend : (applyOp db op).txns = t :: db.txns) :
    t.balance_after = (applyOp db op).current_credits ∧
    (applyOp db op).current_credits = db.current_credits + t.credits := by
  cases op with
  | subCreated p => exact absurd rfl (hkind p)
  | renewal p =>
    simp only [applyOp, handleSubscriptionRenewed, List.cons.injEq] at happend
    obtain ⟨ht, -⟩ := happend
    subst ht
    simp [applyOp, handleSubscriptionRenewed]
  | purchase p =>
    cases hpc : PACKAGE_CREDITS p with
    | none =>
      rw [show applyOp db (LedgerOp.purchase p) = db from by
        simp [applyOp, handlePaymentCompleted, hpc]] at happend
      exact absurd happend.symm (List.cons_ne_self t db.txns)
    | some a =>
      simp only [applyOp, handlePaymentCompleted, hpc, List.cons.injEq] at happend
      obtain ⟨ht, -⟩ := happend
      subst ht
      simp [applyOp, handlePaymentCompleted, hpc]
  | debit ctx f =>
    by_cases hb : ctx.bypass = true
    · rw [show applyOp db (LedgerOp.debit ctx f) = db from by
        simp [applyOp, hookUseCredits, hb]] at happend
      exact absurd happend.symm (List.cons_ne_self t db.txns)
    · by_cases hlt : db.current_credits < CREDIT_COSTS f
      · rw [show applyOp db (LedgerOp.debit ctx f) = db from by
          simp [applyOp, hookUseCredits, hb, hlt]] at happend
        exact absurd happend.symm (List.cons_ne_self t db.txns)
      · cases hid : ctx.identifier with
        | none =>
          rw [show applyOp db (LedgerOp.debit ctx f) = db from by
            simp [applyOp, hookUseCredits, hb, hlt, hid]] at happend
          exact absurd happend.symm (List.cons_ne_self t db.txns)
        | some u =>
          by_cases hup : ctx.updateOk = false
          · rw [show applyOp db (LedgerOp.debit ctx f) = db from by
              simp [applyOp, hookUseCredits, hb, hlt, hid, hup]] at happend
            exact absurd happend.symm (List.cons_ne_self t db.txns)
          · by_cases hit : ctx.insertThrows = true
            · rw [show (applyOp db (LedgerOp.debit ctx f)).txns = db.txns from by
                simp [applyOp, hookUseCredits, hb, hlt, hid, hup, hit]] at happend
              exact absurd happend.symm (List.cons_ne_self t db.txns)
            · have heq : applyOp db (LedgerOp.debit ctx f) =
                  Db.mk (db.current_credits - CREDIT_COSTS f)
                    (TxnRow.mk "usage" (-(CREDIT_COSTS f))
                      (db.current_credits - CREDIT_COSTS f)
                      (some (featureKey f)) :: db.txns) := by
                simp [applyOp, hookUseCredits, hb, hlt, hid, hup, hit]
              rw [heq] at happend ⊢
              simp only [List.cons.injEq] at happend
              obtain ⟨ht, -⟩ := happend
              subst ht
              refine ⟨rfl, ?_⟩
              dsimp only
              omega

/-- Witness for C8: a basic-plan renewal on balance 10 appends a
transaction with `balance_after = 210 = 10 + 200`. -/
theorem c8_txn_balance_after_witness :
    (TxnRow.mk "subscription_credit" 200 210 none).balance_after =
      (applyOp (Db.mk 10 []) (LedgerOp.renewal "basic")).current_credits ∧
    (applyOp (Db.mk 10 []) (LedgerOp.renewal "basic")).current_credits =
      (Db.mk 10 []).current_credits +
        (TxnRow.mk "subscription_credit" 200 210 none).credits :=
  c8_txn_balance_after_is_running_total (Db.mk 10 []) (LedgerOp.renewal "basic")
    (TxnRow.mk "subscription_credit" 200 210 none)
    (fun p h => LedgerOp.noConfusion h) (by decide)

/-- C9 counterexample: after a successful debit, a FAILED pick does not
return the flow to idle - the throw at PDFGeneratorScreen.tsx:731-732
lands in the outer catch which sets the `error` stage - while the balance
stays decremented with only the usage debit logged.  This refutes the
claim's "returns to idle" for the failed-pick case it also covers. -/
theorem c9_failed_pick_sets_error_stage :
    startProcessModel
      (FlowEnv.mk (HookCtx.mk false (some "u") true false)
        PickOutcome.pickFailed true (Except.ok []))
      (Db.mk 7 []).current_credits (Db.mk 7 []) =
      (ProcessStage.error,
       Db.mk 2 [TxnRow.mk "usage" (-5) 2 (some "pdf_mcq")]) ∧
    ProcessStage.error ≠ ProcessStage.idle := ⟨rfl, by decide⟩

/-- C9 (amended): in the `pdf_mcq` flow the debit is issued before the
file picker opens; after a successful debit, a cancelled pick returns
the flow to `idle` while a failed pick sets the `error` stage, and in
both cases the balance is already decremented by 5 with the usage debit
as the only new ledger entry - no compensating credit is applied even
though no generation request was ever sent. -/
theorem c9_pick_abort_keeps_charge (env : FlowEnv) (db : Db) (u : String)
    (hb : env.ctx.bypass = false) (hid : env.ctx.identifier = some u)
    (hup : env.ctx.updateOk = true) (hit : env.ctx.insertThrows = false)
    (hpick : env.pick = PickOutcome.canceled ∨ env.pick = PickOutcome.pickFailed)
    (hbal : CREDIT_COSTS Feature.pdf_mcq ≤ db.current_credits) :
    startProcessModel env db.current_credits db =
      ((if env.pick = PickOutcome.canceled then ProcessStage.idle
        else ProcessStage.error),
       Db.mk (db.current_credits - 5)
         (TxnRow.mk "usage" (-5) (db.current_credits - 5) (some "pdf_mcq")
           :: db.txns)) := by
  have hlt : ¬ (db.current_credits < 5) := by
    simp only [CREDIT_COSTS] at hbal
    omega
  obtain hp | hp := hpick <;>
    simp [startProcessModel, hookUseCredits, hb, hid, hup, hit, hp, hlt,
      CREDIT_COSTS, featureKey]

/-- Witness for C9: balance 7, cancelled pick, final state idle with
balance 2 and exactly the usage transaction logged. -/
theorem c9_pick_abort_keeps_charge_witness :
    startProcessModel
      (FlowEnv.mk (HookCtx.mk false (some "u") true false)
        PickOutcome.canceled true (Except.ok []))
      (Db.mk 7 []).current_credits (Db.mk 7 []) =
      ((if (FlowEnv.mk (HookCtx.mk false (some "u") true false)
            PickOutcome.canceled true (Except.ok [])).pick
            = PickOutcome.canceled then ProcessStage.idle
        else ProcessStage.error),
       Db.mk ((Db.mk 7 []).current_credits - 5)
         (TxnRow.mk "usage" (-5) ((Db.mk 7 []).current_credits - 5)
           (some "pdf_mcq") :: (Db.mk 7 []).txns)) :=
  c9_pick_abort_keeps_charge
    (FlowEnv.mk (HookCtx.mk false (some "u") true false)
      PickOutcome.canceled true (Except.ok []))
    (Db.mk 7 []) "u" rfl rfl rfl rfl (Or.inl rfl) (by decide)

/-- C10: when the transaction-log insert rejects after the balance update
already succeeded, the deduction callback reports failure while the
balance stays decremented and no ledger entry is appended. -/
theorem c10_insert_throw_charges_without_ledger_entry (ctx : HookCtx)
    (f : Feature) (cached : Int) (db : Db) (u : String)
    (hb : ctx.bypass = false) (hid : ctx.identifier = some u)
    (hup : ctx.updateOk = true) (hit : ctx.insertThrows = true)
    (hge : CREDIT_COSTS f ≤ cached) :
    hookUseCredits ctx f cached db =
      (false, Db.mk (cached - CREDIT_COSTS f) db.txns) := by
  have hlt : ¬ (cached < CREDIT_COSTS f) := by omega
  simp [hookUseCredits, hb, hid, hup, hit, hlt]

/-- Witness for C10: `mcq_generator` debit on a balance of exactly 3 with
a rejecting insert: result is failure, balance 0, no transaction row. -/
theorem c10_insert_throw_witness :
    hookUseCredits (HookCtx.mk false (some "u") true true)
      Feature.mcq_generator 3 (Db.mk 3 []) =
      (false, Db.mk (3 - CREDIT_COSTS Feature.mcq_generator) (Db.mk 3 []).txns) :=
  c10_insert_throw_charges_without_ledger_entry
    (HookCtx.mk false (some "u") true true) Feature.mcq_generator 3
    (Db.mk 3 []) "u" rfl rfl rfl rfl (by decide)

-- ===================== Fixtures (parsing claims) =====================

/-- A triple-backtick fence. -/
def fence3 : Chars := [btick, btick, btick]

/-- A response wrapping broken JSON in a fenced code block, followed by a
perfectly parseable text-format question. -/
def c3BadInput : Chars :=
  fence3 ++ str "json\n\x7boops\x7d\n" ++ fence3 ++
    str "\nQuestion 1: What is X about today?\nA. a\nB. b\nC. c\nD. d\nCorrect Answer: B\nExplanation: because"

/-- A response wrapping valid expected JSON in a fenced code block. -/
def c3GoodInput : Chars :=
  fence3 ++ str "json\n\x7b\"mcqs\":[\x7b\"question\":\"Q\"\x7d]\x7d\n" ++ fence3

/-- The capture stage 2 extracts from `c3GoodInput`. -/
def c3GoodCap : Chars := str "\x7b\"mcqs\":[\x7b\"question\":\"Q\"\x7d]\x7d\n"

/-- The JSON value of the fenced block of `c3GoodInput`. -/
def c3GoodVal : JVal :=
  JVal.jobj [(str "mcqs", JVal.jarr [JVal.jobj [(str "question", JVal.jstr (str "Q"))]])]

/-- The `mcqs` entries of `c3GoodVal`. -/
def c3GoodEntries : List JVal := [JVal.jobj [(str "question", JVal.jstr (str "Q"))]]

/-- A whole-response JSON fixture whose single entry has a question but
none of the four options. -/
def c5JsonInput : Chars :=
  str "\x7b\"mcqs\":[\x7b\"question\":\"Only a question and nothing else\"\x7d]\x7d"

/-- A ten-question text response whose block 7 is missing option C. -/
def c5TenInput : Chars := str "Question 1: What is item 1 really about?\nA. aa\nB. bb\nC. cc\nD. dd\nCorrect Answer: A\nExplanation: ok\nQuestion 2: What is item 2 really about?\nA. aa\nB. bb\nC. cc\nD. dd\nCorrect Answer: A\nExplanation: ok\nQuestion 3: What is item 3 really about?\nA. aa\nB. bb\nC. cc\nD. dd\nCorrect Answer: A\nExplanation: ok\nQuestion 4: What is item 4 really about?\nA. aa\nB. bb\nC. cc\nD. dd\nCorrect Answer: A\nExplanation: ok\nQuestion 5: What is item 5 really about?\nA. aa\nB. bb\nC. cc\nD. dd\nCorrect Answer: A\nExplanation: ok\nQuestion 6: What is item 6 really about?\nA. aa\nB. bb\nC. cc\nD. dd\nCorrect Answer: A\nExplanation: ok\nQuestion 7: What is item 7 really about?\nA. aa\nB. bb\nD. dd\nCorrect Answer: A\nExplanation: ok\nQuestion 8: What is item 8 really about?\nA. aa\nB. bb\nC. cc\nD. dd\nCorrect Answer: A\nExplanation: ok\nQuestion 9: What is item 9 really about?\nA. aa\nB. bb\nC. cc\nD. dd\nCorrect Answer: A\nExplanation: ok\nQuestion 10: What is item 10 really about?\nA. aa\nB. bb\nC. cc\nD. dd\nCorrect Answer: A\nExplanation: ok\n"

/-- The first record parsed out of `c5TenInput`. -/
def c5FirstBlock : MCQ :=
  MCQ.mk 1 (str "What is item 1 really about?") (str "aa") (str "bb") (str "cc")
    (str "dd") (str "A") (str "ok")

/-- The spec's single-question text-format scenario. -/
def c6Input : Chars :=
  str "Question 1: What is X?\nA. a\nB. b\nC. c\nD. d\nCorrect Answer: B\nExplanation: because"

/-- The spec's options-array JSON scenario. -/
def c4ScenarioInput : Chars :=
  str "\x7b\"questions\":[\x7b\"question\":\"Q?\",\"options\":[\x7b\"text\":\"a\",\"isCorrect\":false\x7d,\x7b\"text\":\"b\",\"isCorrect\":true\x7d,\x7b\"text\":\"c\",\"isCorrect\":false\x7d,\x7b\"text\":\"d\",\"isCorrect\":false\x7d]\x7d]\x7d"

/-- The options list carrying flags (false, true, false, true). -/
def c4FlagsInput : List JVal :=
  [mkFlagOpt false, mkFlagOpt true, mkFlagOpt false, mkFlagOpt true]

set_option maxRecDepth 100000

-- ===================== Helper lemmas (text parser) =====================

/-- Every record `parseBlock` emits passed its guards: the question body
and all four options are non-empty. -/
theorem parseBlock_fields (nd qc : Chars) (m : MCQ)
    (h : parseBlock nd qc = some m) :
    m.question.isEmpty = false ∧ m.optionA.isEmpty = false ∧
    m.optionB.isEmpty = false ∧ m.optionC.isEmpty = false ∧
    m.optionD.isEmpty = false := by
  simp only [parseBlock] at h
  split at h
  · simp at h
  · split at h
    · simp at h
    · split at h
      · simp at h
      · rename_i hq hopts
        obtain rfl := Option.some.inj h
        simp only [not_or, Bool.not_eq_true] at hq hopts
        exact ⟨hq.1, hopts.1, hopts.2.1, hopts.2.2.1, hopts.2.2.2⟩

/-- Every record the block loop emits comes from a successful
`parseBlock`, hence has a question body and all four options. -/
theorem parseLoop_fields : ∀ (parts : List Chars) (m : MCQ),
    m ∈ parseLoop parts →
    m.question.isEmpty = false ∧ m.optionA.isEmpty = false ∧
    m.optionB.isEmpty = false ∧ m.optionC.isEmpty = false ∧
    m.optionD.isEmpty = false
  | [], m, h => absurd h (List.not_mem_nil m)
  | [_], m, h => absurd h (List.not_mem_nil m)
  | nd :: qc :: rest, m, h => by
    simp only [parseLoop, List.mem_append] at h
    rcases h with h1 | h2
    · cases hpb : parseBlock nd qc with
      | none => rw [hpb] at h1; exact absurd h1 (List.not_mem_nil m)
      | some m2 =>
        rw [hpb] at h1
        simp only [List.mem_singleton] at h1
        subst h1
        exact parseBlock_fields nd qc m hpb
    · exact parseLoop_fields rest m h2

-- ===================== Claim theorems: parsing =====================

/-- C6: the line-oriented text parser applied to the spec's scenario
input returns exactly one record with the stated fields. -/
theorem c6_text_stage_scenario :
    parseMCQResponse c6Input =
      [MCQ.mk 1 (str "What is X?") (str "a") (str "b") (str "c") (str "d")
        (str "B") (str "because")] := by decide

/-- C3 counterexample: on a response whose fenced code block holds broken
JSON, the stage-2 `JSON.parse` error propagates to the caller - a parse
failure is reported even though stage 4 was never invoked and would have
produced a question (the text parser finds one valid block in the same
response).  This refutes "every stage's failure is swallowed" and
"failure is reported only when all four stages have failed". -/
theorem c3_stage2_error_skips_remaining_stages :
    parsePdfContent c3BadInput = Except.error ParseErr.jsonThrow ∧
    (parseMCQResponse c3BadInput).length = 1 := ⟨rfl, by decide⟩

/-- C3 (amended): the stages are tried in order stopping at the first
success, and a response wrapped in a fenced code block whose contents are
the expected JSON is resolved by stage 2 - the result carries the stage-2
tag, so the text parser (stage 4) is never invoked.  (Only stage 1's JSON
failure is swallowed; a stage-2/3 JSON error propagates, per the
counterexample.) -/
theorem c3_fenced_json_resolved_by_stage_two (content cap : Chars)
    (v : JVal) (xs : List JVal)
    (h1 : jsonParseModel content = none)
    (h2 : fencedMatch content = some cap)
    (h3 : jsonParseModel (jsTrim cap) = some v)
    (h4 : jGetField v (str "mcqs") = some (JVal.jarr xs))
    (h5 : xs ≠ []) :
    parsePdfContent content =
      Except.ok (PStage.s2, xs.enum.map fun p => pdfNormalizeEntry p.1 p.2) := by
  have hne : xs.isEmpty = false := by
    cases xs with
    | nil => exact absurd rfl h5
    | cons a l => rfl
  simp [parsePdfContent, h1, h2, h3, pdfFinish, jLenTruthy, h4, hne, Except.map]

/-- Witness for C3: the concrete fenced fixture resolves via stage 2. -/
theorem c3_fenced_json_stage_two_witness :
    parsePdfContent c3GoodInput =
      Except.ok (PStage.s2,
        c3GoodEntries.enum.map fun p => pdfNormalizeEntry p.1 p.2) :=
  c3_fenced_json_resolved_by_stage_two c3GoodInput c3GoodCap c3GoodVal
    c3GoodEntries rfl rfl rfl rfl (List.cons_ne_nil _ _)

/-- C4 counterexample: with flags (false, true, false, true) the source
computes `D` (the last flagged option among B-D), while the claimed
first-true-flag rule yields `B`. -/
theorem c4_last_true_flag_wins_not_first :
    aiCorrectLetter c4FlagsInput = str "D" ∧
    specFirstTrueLetter [false, true, false, true] = str "B" ∧
    str "D" ≠ str "B" := ⟨rfl, rfl, by decide⟩

/-- C4 (amended): `correctOption` is determined by the LAST of options
B, C, D whose flag is true (option A's own flag is never consulted),
defaulting to `A` when none of B-D is flagged; the spec's scenario with
flags (false, true, false, false) still normalizes to `B`. -/
theorem c4_correct_letter_last_flag_and_scenario :
    (∀ b0 b1 b2 b3 : Bool,
      aiCorrectLetter [mkFlagOpt b0, mkFlagOpt b1, mkFlagOpt b2, mkFlagOpt b3] =
        (if b3 then str "D" else if b2 then str "C"
         else if b1 then str "B" else str "A")) ∧
    parseAimcqContent c4ScenarioInput =
      Except.ok (PStage.s1,
        [MCQ.mk 1 (str "Q?") (str "a") (str "b") (str "c") (str "d")
          (str "B") []]) := by
  constructor
  · intro b0 b1 b2 b3
    cases b0 <;> cases b1 <;> cases b2 <;> cases b3 <;> rfl
  · rfl

/-- C5 counterexample: in the stage-1 JSON path, an entry lacking all
four options is NOT dropped - it is emitted with empty-string placeholder
options (and default correct answer `A`), so the "dropped at every
stage" claim fails for the JSON stages. -/
theorem c5_json_stage_emits_placeholder_entry :
    parsePdfContent c5JsonInput =
      Except.ok (PStage.s1,
        [MCQ.mk 1 (str "Only a question and nothing else") [] [] [] []
          (str "A") []]) := rfl

/-- C5 (amended): in the line-oriented text-parser stage a question block
missing its question body or any of its four options is dropped silently
(every emitted record has a non-empty question and four non-empty
options), and the ten-question raw input with one malformed block yields
exactly 9 records.  The JSON stages instead emit placeholder fields, per
the counterexample. -/
theorem c5_text_stage_drops_incomplete_blocks :
    (∀ content m, m ∈ parseMCQResponse content →
      m.question.isEmpty = false ∧ m.optionA.isEmpty = false ∧
      m.optionB.isEmpty = false ∧ m.optionC.isEmpty = false ∧
      m.optionD.isEmpty = false) ∧
    (parseMCQResponse c5TenInput).length = 9 := by
  constructor
  · intro content m hm
    unfold parseMCQResponse at hm
    cases hsp : splitQuestions content with
    | nil =>
      rw [hsp] at hm
      exact absurd hm (List.not_mem_nil m)
    | cons pre rest =>
      rw [hsp] at hm
      exact parseLoop_fields rest m hm
  · decide

/-- Witness for C5: the first record of the ten-question fixture is in the
output and its option A is non-empty. -/
theorem c5_text_stage_witness :
    c5FirstBlock ∈ parseMCQResponse c5TenInput ∧
    c5FirstBlock.optionA.isEmpty = false :=
  ⟨by decide,
   (c5_text_stage_drops_incomplete_blocks.1 c5TenInput c5FirstBlock
     (by decide)).2.1⟩
